import Mathlib

/-!
# Verification of the PhysiHome messaging core (`app/routers/web.py`)

A shallow embedding of the messaging access-control and conversation-resolution
logic of `app/routers/web.py`, together with theorems checking the
natural-language specification against it.

Modelling conventions:
* Python dict-shaped user documents become a `User` structure with `Option`
  fields (`none` = key absent or stored `None`).
* The dynamically typed `is_admin` / `restricted` flags become `PyVal`,
  a small model of the Python values those fields hold, with Python
  truthiness (`pyTruthy`) and the exact tuple-membership test the code uses.
* `datetime` values become `Nat` (only ordering and equality are used; a
  Python `datetime` object is always truthy).
* MongoDB collections become Lean lists; `find_one` is `List.find?`
  (first match in natural order), `count_documents` a filtered length,
  `insert_one` an append, `update_one` a map over the list.
* The session resolver (`get_user_from_request`) is external to the core and
  becomes an `Option User` parameter; `_get_admin_ids` (which reconciles the
  admin roster as a side effect) becomes an `adminIds : List String`
  parameter, and user lookup by id a `lookup : String → Option User`
  parameter (`none` also covers an `ObjectId` parse failure inside `try`).
* The `cryptography` library's Fernet and `hashlib.sha256` are external
  primitives and are modelled symbolically (see `FernetToken`), while the
  UTF-8 text codec used by `str.encode`/`bytes.decode` is modelled for real
  on byte lists.
-/

/-- A model of the Python values stored in loosely typed user-document fields
such as `is_admin` and `restricted`: `None`, a `bool`, an `int`, or a `str`. -/
inductive PyVal where
  | none : PyVal
  | bool (b : Bool) : PyVal
  | int (n : Int) : PyVal
  | str (s : String) : PyVal
deriving DecidableEq, Repr

/-- Python truthiness of a `PyVal`: `None`, `False`, `0` and `""` are falsy,
everything else is truthy. -/
def pyTruthy : PyVal → Bool
  | .none => false
  | .bool b => b
  | .int n => n != 0
  | .str s => s != ""

/-- Python `str.isspace` members that `str.strip()` removes (ASCII whitespace;
the repository only strips spaces around e-mails, roles and message text). -/
def pyIsSpace (c : Char) : Bool :=
  c == ' ' || c == Char.ofNat 9 || c == Char.ofNat 10 || c == Char.ofNat 13 ||
    c == Char.ofNat 11 || c == Char.ofNat 12

/-- Python `str.strip()`: drop leading and trailing whitespace. -/
def pyStrip (s : String) : String :=
  String.mk (((s.data.dropWhile pyIsSpace).reverse.dropWhile pyIsSpace).reverse)

/-- Python `str.lower()` on one character (ASCII case mapping; the values the
core compares against are all ASCII). -/
def pyLowerChar (c : Char) : Char :=
  if 'A' ≤ c && c ≤ 'Z' then Char.ofNat (c.toNat + 32) else c

/-- Python `str.lower()`. -/
def pyLower (s : String) : String :=
  String.mk (s.data.map pyLowerChar)

/-- Python `<` on strings, at the character-list level: lexicographic
comparison of code points. -/
def pyCharListLt : List Char → List Char → Bool
  | [], [] => false
  | [], _ :: _ => true
  | _ :: _, [] => false
  | a :: as, b :: bs => a < b || (a == b && pyCharListLt as bs)

/-- Python `a < b` on strings. -/
def pyStrLt (a b : String) : Bool :=
  pyCharListLt a.data b.data

/-- Python `a <= b` on strings. -/
def pyStrLe (a b : String) : Bool :=
  pyStrLt a b || a == b

/-- Insertion step of `pySorted`. -/
def pyInsert (a : String) : List String → List String
  | [] => [a]
  | b :: bs => if pyStrLe a b then a :: b :: bs else b :: pyInsert a bs

/-- Python `sorted` on a list of strings (stable ascending sort in
lexicographic code-point order, realized as insertion sort). -/
def pySorted : List String → List String
  | [] => []
  | a :: as => pyInsert a (pySorted as)

/-- Python `str(x or "").strip().lower()` applied to an optional string field
(`none` models both an absent key and a stored `None`; `or` sends `""` to
`""` as well, so `getD ""` is exact). -/
def pyNormOpt (o : Option String) : String :=
  pyLower (pyStrip (o.getD ""))

/-- The membership test `user.get("is_admin") in (True, 1, "1", "true", "True",
"TRUE")` from `_is_admin_user`.  Python `==` identifies `True` with `1`, so the
`int` case accepts exactly `1`; `False` equals none of the tuple's elements. -/
def isAdminFlagSet : PyVal → Bool
  | .bool b => b
  | .int n => n == 1
  | .str s => s == "1" || s == "true" || s == "True" || s == "TRUE"
  | .none => false

/-- A user document, restricted to the fields the messaging core reads. -/
structure User where
  /-- `str(user.get("_id"))`. -/
  id : String
  role : Option String
  is_admin : PyVal
  email : Option String
  restricted : PyVal
  doctor_verification_status : Option String
  status : Option String
  verification_status : Option String
  first_name : Option String
  last_name : Option String
deriving DecidableEq, Repr

/-- A conversation document.  `participants` is the stored sequence of
participant ids (already stringified); `last_read_at` is the per-participant
read-mark mapping.  Timestamps are `Nat`. -/
structure Conversation where
  id : String
  participants : List String
  created_at : Nat
  updated_at : Nat
  last_read_at : List (String × Nat)
deriving DecidableEq, Repr

/-- `_admin_emails`: normalize the configured admin e-mail list —
keep non-empty entries, strip and lower-case them, deduplicate and sort. -/
def admin_emails (cfg : List String) : List String :=
  pySorted (((cfg.filter (fun e => e != "")).map (fun e => pyLower (pyStrip e))).eraseDups)

/-- `_is_admin_user`: truthy-tuple admin flag, or role `"admin"` after
strip/lower, or non-empty normalized e-mail contained in the configured
admin-email set. -/
def is_admin_user (cfg : List String) : Option User → Bool
  | Option.none => false
  | Option.some u =>
    if isAdminFlagSet u.is_admin then true
    else if pyNormOpt u.role == "admin" then true
    else
      let email := pyNormOpt u.email
      email != "" && email ∈ admin_emails cfg

/-- `_is_messaging_restricted`: absent user is restricted; admins are never
restricted; then the `restricted` flag, the unconditional
`doctor_verification_status` check, and the doctor-specific fallback chain
`doctor_verification_status` / `status` / `verification_status`. -/
def is_messaging_restricted (cfg : List String) : Option User → Bool
  | Option.none => true
  | Option.some u =>
    if is_admin_user cfg (Option.some u) then false
    else if pyTruthy u.restricted then true
    else if (match u.doctor_verification_status with
             | Option.some s => pyLower (pyStrip s) != "verified"
             | Option.none => false) then true
    else
      let role := pyNormOpt u.role
      if role == "doctor" then
        let raw : Option String :=
          match u.doctor_verification_status with
          | Option.some s => Option.some s
          | Option.none => u.status
        let raw : Option String :=
          match raw with
          | Option.none => u.verification_status
          | Option.some s => Option.some s
        pyNormOpt raw != "verified"
      else false

/-- `_restricted_can_access_conversation`: the other-participant ids are the
stored participants minus the requester; empty means no access; a doctor may
only reach all-admin counterparties (and only when the admin set is
non-empty); a non-doctor passes the fast all-admin set check, else every
other participant must individually resolve to an admin user. -/
def restricted_can_access_conversation (cfg : List String) (adminIds : List String)
    (lookup : String → Option User) (u : User) (convo : Conversation) : Bool :=
  let user_id := u.id
  let role := pyNormOpt u.role
  let other_ids := convo.participants.filter (fun pid => pid != user_id)
  if other_ids.isEmpty then false
  else if role == "doctor" then
    !adminIds.isEmpty && other_ids.all (fun pid => pid ∈ adminIds)
  else if !adminIds.isEmpty && other_ids.all (fun pid => pid ∈ adminIds) then true
  else other_ids.all (fun pid => is_admin_user cfg (lookup pid))

/-- The other-participant ids of a conversation from a user's point of view
(`other_ids` in `_restricted_can_access_conversation`). -/
def other_participant_ids (u : User) (convo : Conversation) : List String :=
  convo.participants.filter (fun pid => pid != u.id)

/-- The body of `_restricted_access_error()`. -/
def restricted_access_error_message : String :=
  "Please wait for admin to verify your account."

/-- `_admin_broadcast_counterparty`: classify a conversation as an admin
broadcast thread from `user_id`'s point of view.  Returns the single
non-admin participant when the viewer is an admin, the sentinel
`"__ADMIN__"` when the viewer is that non-admin participant, `none`
otherwise. -/
def admin_broadcast_counterparty (convo : Conversation) (user_id : String)
    (admin_ids : List String) : Option String :=
  let participants := convo.participants
  if participants.isEmpty || admin_ids.isEmpty then Option.none
  else
    let admin_participants := participants.filter (fun pid => pid ∈ admin_ids)
    if admin_participants.isEmpty then Option.none
    else
      match participants.filter (fun pid => pid ∉ admin_ids) with
      | [p] =>
        if user_id ∈ admin_ids then Option.some p
        else if user_id == p then Option.some "__ADMIN__"
        else Option.none
      | _ => Option.none

/-! ## Message store and cipher

`_fernet` builds a Fernet instance from the SHA-256 digest of
`settings.secret_key`.  SHA-256, the base64 re-encoding and Fernet's AES +
HMAC internals are external library primitives; they are modelled
symbolically: a derived key is a constructor application on the secret
(deterministic, as the spec requires), and a Fernet token is either a value
validly produced under some key, or a blob that fails Fernet's own
base64/structure/HMAC validation (`InvalidToken` covers all of these in the
`cryptography` library).  The UTF-8 codec is modelled concretely. -/

/-- The key derived by `_fernet()` from the configured secret.  Symbolic
stand-in for `urlsafe_b64encode(sha256(secret).digest())`. -/
structure FernetKey where
  secret : String
deriving DecidableEq, Repr

/-- A Fernet token: `valid key bytes` is any token correctly produced under
`key` with decrypted payload `bytes`; `malformed` is any string failing
Fernet's base64/structure/HMAC validation. -/
inductive FernetToken where
  | valid (key : FernetKey) (plaintext : List Nat) : FernetToken
  | malformed : FernetToken
deriving DecidableEq, Repr

/-- `Fernet.encrypt` under a key, at the byte level. -/
def fernetEncrypt (key : FernetKey) (plaintext : List Nat) : FernetToken :=
  FernetToken.valid key plaintext

/-- `Fernet.decrypt` under a key: `Option.none` models raising
`InvalidToken` (authentication failure, wrong key, or token-format failure). -/
def fernetDecrypt (key : FernetKey) : FernetToken → Option (List Nat)
  | FernetToken.valid k b => if k = key then Option.some b else Option.none
  | FernetToken.malformed => Option.none

/-- UTF-8 encoding of one Unicode code point (as produced by Python's
`str.encode("utf-8")` for a valid scalar value). -/
def utf8EncodeChar (c : Nat) : List Nat :=
  if c < 0x80 then [c]
  else if c < 0x800 then [0xC0 + c / 0x40, 0x80 + c % 0x40]
  else if c < 0x10000 then
    [0xE0 + c / 0x1000, 0x80 + c / 0x40 % 0x40, 0x80 + c % 0x40]
  else
    [0xF0 + c / 0x40000, 0x80 + c / 0x1000 % 0x40, 0x80 + c / 0x40 % 0x40,
      0x80 + c % 0x40]

/-- UTF-8 encoding of a character list. -/
def utf8EncodeList : List Char → List Nat
  | [] => []
  | c :: cs => utf8EncodeChar c.toNat ++ utf8EncodeList cs

/-- `text.encode("utf-8")`. -/
def utf8Encode (s : String) : List Nat :=
  utf8EncodeList s.data

/-- One step of strict UTF-8 decoding, as Python's `bytes.decode("utf-8")`
performs it: given the lead byte and the remaining bytes, produce the decoded
code point and the unconsumed rest, rejecting bad lead/continuation bytes,
overlong forms, surrogates and out-of-range values. -/
def utf8DecodeOne (b0 : Nat) (rest : List Nat) : Option (Nat × List Nat) :=
  if b0 < 0x80 then Option.some (b0, rest)
  else if b0 < 0xE0 then
    match rest with
    | b1 :: rest2 =>
      let cp := (b0 - 0xC0) * 0x40 + (b1 - 0x80)
      if 0xC0 ≤ b0 ∧ 0x80 ≤ b1 ∧ b1 < 0xC0 ∧ 0x80 ≤ cp then
        Option.some (cp, rest2)
      else Option.none
    | [] => Option.none
  else if b0 < 0xF0 then
    match rest with
    | b1 :: b2 :: rest3 =>
      let cp := (b0 - 0xE0) * 0x1000 + (b1 - 0x80) * 0x40 + (b2 - 0x80)
      if 0x80 ≤ b1 ∧ b1 < 0xC0 ∧ 0x80 ≤ b2 ∧ b2 < 0xC0 ∧ 0x800 ≤ cp ∧
          ¬(0xD800 ≤ cp ∧ cp < 0xE000) then
        Option.some (cp, rest3)
      else Option.none
    | _ => Option.none
  else
    match rest with
    | b1 :: b2 :: b3 :: rest4 =>
      let cp := (b0 - 0xF0) * 0x40000 + (b1 - 0x80) * 0x1000 +
        (b2 - 0x80) * 0x40 + (b3 - 0x80)
      if b0 < 0xF8 ∧ 0x80 ≤ b1 ∧ b1 < 0xC0 ∧ 0x80 ≤ b2 ∧ b2 < 0xC0 ∧
          0x80 ≤ b3 ∧ b3 < 0xC0 ∧ 0x10000 ≤ cp ∧ cp < 0x110000 then
        Option.some (cp, rest4)
      else Option.none
    | _ => Option.none

/-- `utf8DecodeOne` only ever hands back a suffix of its input. -/
theorem utf8DecodeOne_length {b0 : Nat} {rest rest2 : List Nat} {cp : Nat}
    (h : utf8DecodeOne b0 rest = Option.some (cp, rest2)) :
    rest2.length ≤ rest.length := by
  unfold utf8DecodeOne at h
  repeat' split at h
  all_goals simp_all
  all_goals omega

/-- Strict UTF-8 decoding of a byte list to its code points; `Option.none`
models raising `UnicodeDecodeError`. -/
def utf8DecodeAux (bytes : List Nat) : Option (List Nat) :=
  match bytes with
  | [] => Option.some []
  | b0 :: rest =>
    match h : utf8DecodeOne b0 rest with
    | Option.some (cp, rest2) => (utf8DecodeAux rest2).map (fun cps => cp :: cps)
    | Option.none => Option.none
termination_by bytes.length
decreasing_by
  simp only [List.length_cons]
  exact Nat.lt_succ_of_le (utf8DecodeOne_length h)

/-- `bytes.decode("utf-8")` to a string. -/
def utf8Decode (bytes : List Nat) : Option String :=
  (utf8DecodeAux bytes).map (fun cps => String.mk (cps.map Char.ofNat))

/-- `_encrypt_text`: encrypt the UTF-8 encoding of `text` under the key
derived from the configured secret. -/
def encrypt_text (secret : String) (text : String) : FernetToken :=
  fernetEncrypt (FernetKey.mk secret) (utf8Encode text)

/-- `_decrypt_text`: decrypt, returning `""` when Fernet raises
`InvalidToken`; a successful decryption is then UTF-8-decoded, where
`Option.none` models an uncaught `UnicodeDecodeError`. -/
def decrypt_text (secret : String) (token : FernetToken) : Option String :=
  match fernetDecrypt (FernetKey.mk secret) token with
  | Option.none => Option.some ""
  | Option.some plaintext => utf8Decode plaintext

/-! ## Unread tracker -/

/-- A message document.  `ciphertext` is the only persisted form of the
body. -/
structure Message where
  conversation_id : String
  sender_id : String
  ciphertext : FernetToken
  created_at : Nat
deriving DecidableEq, Repr

/-- The MongoDB query built by `_compute_unread_count`:
`conversation_id` equality, `sender_id` `$ne`, optional `created_at` `$gt`. -/
structure MessageQuery where
  conversation_id : String
  sender_ne : String
  created_gt : Option Nat
deriving DecidableEq, Repr

/-- Whether a message document matches a `MessageQuery`. -/
def matchesQuery (q : MessageQuery) (m : Message) : Bool :=
  m.conversation_id == q.conversation_id && m.sender_id != q.sender_ne &&
    (match q.created_gt with
     | Option.some t => t < m.created_at
     | Option.none => true)

/-- `_compute_unread_count`: count the messages of the conversation from
other senders, restricted to those after the viewer's last-read mark when one
is present (a stored `datetime` is always truthy, so presence of the mapping
entry is the `if last_read_at:` test). -/
def compute_unread_count (msgs : List Message) (convo : Conversation)
    (user_id : String) : Nat :=
  let last_read_at := convo.last_read_at.lookup user_id
  let query : MessageQuery :=
    { conversation_id := convo.id, sender_ne := user_id, created_gt := last_read_at }
  (msgs.filter (matchesQuery query)).length

/-! ## Conversation directory -/

/-- Python `sorted([a, b])` on the two participant ids of `start_message`
(lexicographic string order, as MongoDB stores them stringified). -/
def canonical_pair_participants (a b : String) : List String :=
  if pyStrLe a b then [a, b] else [b, a]

/-- The canonicalization the spec describes for `startConversation`:
`sort(dedupe([a, b]))`. -/
def canonical_pair_participants_spec (a b : String) : List String :=
  pySorted ([a, b].eraseDups)

/-- The conversation-resolution core of `start_message` (`GET
/messages/start/{doctor_id}`), after access checks have passed: canonicalize
the pair, return the first conversation whose stored participant sequence
equals it exactly, else insert a fresh conversation (id `freshId`,
`created_at = updated_at = now`, no read marks).  Returns the resolved
conversation id and the updated collection. -/
def start_message_core (convos : List Conversation) (freshId : String) (now : Nat)
    (user_id doctor_id : String) : String × List Conversation :=
  let participants := canonical_pair_participants user_id doctor_id
  match convos.find? (fun c => c.participants == participants) with
  | Option.some existing => (existing.id, convos)
  | Option.none =>
    (freshId,
      convos ++ [{ id := freshId, participants := participants, created_at := now,
                   updated_at := now, last_read_at := [] }])

/-! ## API endpoints -/

/-- `bson.ObjectId` accepts exactly a 24-character hexadecimal string; used to
model the `try: ObjectId(thread_id) except: ...` guards. -/
def isValidObjectIdStr (s : String) : Bool :=
  s.length == 24 &&
    s.data.all (fun c => c.isDigit || ('a' ≤ c && c ≤ 'f') || ('A' ≤ c && c ≤ 'F'))

/-- The document stores the endpoints touch. -/
structure Store where
  conversations : List Conversation
  messages : List Message
deriving DecidableEq, Repr

/-- One rendered message, as the JSON endpoints emit it.  `text` is the
decrypted body; `Option.none` models an uncaught decode exception. -/
structure MsgView where
  sender_id : String
  text : Option String
  created_at : Nat
  is_me : Bool
deriving DecidableEq, Repr

/-- One entry of the thread listing. -/
structure ThreadEntry where
  id : String
  title : String
  unread_count : Nat
  updated_at : Nat
  locked : Bool
deriving DecidableEq, Repr

/-- The `other_name` resolution of the thread-listing loops: `"Admin"` for the
broadcast sentinel, else the counterparty's rendered name (`"Dr. "` prefix for
doctors), else `none`.  An `ObjectId` parse failure on `other_id` is folded
into `lookup` returning `none`. -/
def thread_other_name (lookup : String → Option User) (admin_cp : Option String)
    (convo : Conversation) (user_id : String) : Option String :=
  let other_id : Option String :=
    match admin_cp with
    | Option.some p => if p != "__ADMIN__" then Option.some p else Option.none
    | Option.none => convo.participants.find? (fun pid => pid != user_id)
  let other_user : Option User := other_id.bind lookup
  if admin_cp == Option.some "__ADMIN__" then Option.some "Admin"
  else
    match other_user with
    | Option.some ou =>
      let first := ou.first_name.getD ""
      let last := ou.last_name.getD ""
      if ou.role == Option.some "doctor" then
        Option.some (pyStrip ("Dr. " ++ first ++ " " ++ last))
      else Option.some (pyStrip (first ++ " " ++ last))
    | Option.none => Option.none

/-- `other_name or "Conversation"` (Python `or`: `None` and `""` both fall
through to the default). -/
def title_or_default (o : Option String) : String :=
  match o with
  | Option.some s => if s == "" then "Conversation" else s
  | Option.none => "Conversation"

/-- The body of the thread-listing loop of `api_threads` (and of the
`/messages` pages) for one conversation: a restricted doctor keeps
inaccessible conversations with `locked := true`; any other restricted user
skips them (`continue`); everything else is listed unlocked. -/
def thread_entry_for (cfg adminIds : List String) (lookup : String → Option User)
    (msgs : List Message) (u : User) (convo : Conversation) : Option ThreadEntry :=
  let restricted_mode := is_messaging_restricted cfg (Option.some u)
  let role := pyNormOpt u.role
  let entry : Bool → ThreadEntry := fun locked =>
    { id := convo.id
      title := title_or_default
        (thread_other_name lookup (admin_broadcast_counterparty convo u.id adminIds)
          convo u.id)
      unread_count := compute_unread_count msgs convo u.id
      updated_at := convo.updated_at
      locked := locked }
  if restricted_mode && role == "doctor" then
    Option.some (entry (!(restricted_can_access_conversation cfg adminIds lookup u convo)))
  else if restricted_mode &&
      !(restricted_can_access_conversation cfg adminIds lookup u convo) then
    Option.none
  else Option.some (entry false)

/-- `.sort("updated_at", -1)` on a conversation cursor. -/
def sort_by_updated_desc (convos : List Conversation) : List Conversation :=
  convos.mergeSort (fun a b => b.updated_at ≤ a.updated_at)

/-- Result of `GET /api/messages/threads`. -/
structure ThreadsResult where
  status : Nat
  threads : List ThreadEntry
deriving DecidableEq, Repr

/-- `api_threads`: 401 with an empty list when no viewer resolves; otherwise
the viewer's conversations, newest first, filtered and flagged by
`thread_entry_for`. -/
def api_threads (cfg adminIds : List String) (lookup : String → Option User)
    (user : Option User) (s : Store) : ThreadsResult :=
  match user with
  | Option.none => { status := 401, threads := [] }
  | Option.some u =>
    let convos :=
      sort_by_updated_desc (s.conversations.filter (fun c => u.id ∈ c.participants))
    { status := 200,
      threads := convos.filterMap (thread_entry_for cfg adminIds lookup s.messages u) }

/-- Result of `GET /api/messages/unread`. -/
structure UnreadResult where
  status : Nat
  unread : Nat
deriving DecidableEq, Repr

/-- `api_unread`: with no viewer it answers `{"unread": 0}` with the default
200 status; otherwise it sums unread counts over the viewer's conversations,
skipping inaccessible ones in restricted mode. -/
def api_unread (cfg adminIds : List String) (lookup : String → Option User)
    (user : Option User) (s : Store) : UnreadResult :=
  match user with
  | Option.none => { status := 200, unread := 0 }
  | Option.some u =>
    let restricted_mode := is_messaging_restricted cfg (Option.some u)
    let convos := s.conversations.filter (fun c => u.id ∈ c.participants)
    let kept := convos.filter (fun c =>
      !(restricted_mode && !(restricted_can_access_conversation cfg adminIds lookup u c)))
    { status := 200,
      unread := (kept.map (fun c => compute_unread_count s.messages c u.id)).sum }

/-- Result of `POST /api/messages/{thread_id}/send`: status, `error` body
field, `message` body field, and the stores after the call. -/
structure SendResult where
  status : Nat
  error : Option String
  message : Option MsgView
  store : Store
deriving DecidableEq, Repr

/-- `api_send_message`: 401 without a viewer; 400 `"Empty message"` on
whitespace-only text before any store access; 400 on an unparsable id; 403
`"Forbidden"` when the viewer is no participant of the conversation; the
restricted-mode gate with the doctor-specific denial body; otherwise insert
the encrypted message, bump the conversation's `updated_at`, and echo the
plaintext back. -/
def api_send_message (cfg adminIds : List String) (lookup : String → Option User)
    (secret : String) (user : Option User) (thread_id text : String) (now : Nat)
    (s : Store) : SendResult :=
  match user with
  | Option.none => { status := 401, error := Option.some "Unauthorized",
                     message := Option.none, store := s }
  | Option.some u =>
    let message := pyStrip text
    if message == "" then
      { status := 400, error := Option.some "Empty message",
        message := Option.none, store := s }
    else if !(isValidObjectIdStr thread_id) then
      { status := 400, error := Option.some "Invalid conversation",
        message := Option.none, store := s }
    else
      match s.conversations.find? (fun c => c.id == thread_id && u.id ∈ c.participants) with
      | Option.none =>
        { status := 403, error := Option.some "Forbidden",
          message := Option.none, store := s }
      | Option.some convo =>
        if is_messaging_restricted cfg (Option.some u) &&
            !(restricted_can_access_conversation cfg adminIds lookup u convo) then
          if pyNormOpt u.role == "doctor" then
            { status := 403, error := Option.some restricted_access_error_message,
              message := Option.none, store := s }
          else
            { status := 403, error := Option.some "Forbidden",
              message := Option.none, store := s }
        else
          let msg : Message :=
            { conversation_id := thread_id, sender_id := u.id,
              ciphertext := encrypt_text secret message, created_at := now }
          { status := 200, error := Option.none,
            message := Option.some
              { sender_id := u.id, text := Option.some message,
                created_at := now, is_me := true },
            store :=
              { conversations := s.conversations.map (fun c =>
                  if c.id == thread_id then { c with updated_at := now } else c)
                messages := s.messages ++ [msg] } }

/-- `{"$set": {f"last_read_at.{user_id}": now}}` on one conversation
document: upsert the viewer's entry of the read-mark mapping. -/
def set_last_read (convo : Conversation) (user_id : String) (now : Nat) : Conversation :=
  { convo with
    last_read_at := (user_id, now) :: convo.last_read_at.filter (fun p => p.1 != user_id) }

/-- Result of `POST /api/messages/{thread_id}/read`. -/
structure MarkReadResult where
  status : Nat
  ok : Bool
  error : Option String
  store : Store
deriving DecidableEq, Repr

/-- `api_mark_read`: 401 without a viewer, 400 on an unparsable id, 403 when
not a participant or denied in restricted mode (doctor denial carries the
fixed message), else stamp the viewer's read mark. -/
def api_mark_read (cfg adminIds : List String) (lookup : String → Option User)
    (user : Option User) (thread_id : String) (now : Nat) (s : Store) : MarkReadResult :=
  match user with
  | Option.none =>
    { status := 401, ok := false, error := Option.none, store := s }
  | Option.some u =>
    if !(isValidObjectIdStr thread_id) then
      { status := 400, ok := false, error := Option.none, store := s }
    else
      match s.conversations.find? (fun c => c.id == thread_id && u.id ∈ c.participants) with
      | Option.none =>
        { status := 403, ok := false, error := Option.none, store := s }
      | Option.some convo =>
        if is_messaging_restricted cfg (Option.some u) &&
            !(restricted_can_access_conversation cfg adminIds lookup u convo) then
          if pyNormOpt u.role == "doctor" then
            { status := 403, ok := false,
              error := Option.some restricted_access_error_message, store := s }
          else
            { status := 403, ok := false, error := Option.none, store := s }
        else
          { status := 200, ok := true, error := Option.none,
            store :=
              { s with conversations := s.conversations.map (fun c =>
                  if c.id == thread_id then set_last_read c u.id now else c) } }

/-- Result of `GET /api/messages/{thread_id}/since`. -/
structure SinceResult where
  status : Nat
  error : Option String
  messages : List MsgView
deriving DecidableEq, Repr

/-- `api_messages_since`: the polling read.  `after` is the already-parsed
`after` query value (`none` both when absent and when the ISO parse fails,
which the code ignores).  Messages of the conversation, optionally strictly
newer than `after`, sorted by `created_at` ascending, decrypted. -/
def api_messages_since (cfg adminIds : List String) (lookup : String → Option User)
    (secret : String) (user : Option User) (thread_id : String) (after : Option Nat)
    (s : Store) : SinceResult :=
  match user with
  | Option.none => { status := 401, error := Option.none, messages := [] }
  | Option.some u =>
    if !(isValidObjectIdStr thread_id) then
      { status := 400, error := Option.none, messages := [] }
    else
      match s.conversations.find? (fun c => c.id == thread_id && u.id ∈ c.participants) with
      | Option.none => { status := 403, error := Option.none, messages := [] }
      | Option.some convo =>
        if is_messaging_restricted cfg (Option.some u) &&
            !(restricted_can_access_conversation cfg adminIds lookup u convo) then
          if pyNormOpt u.role == "doctor" then
            { status := 403, error := Option.some restricted_access_error_message,
              messages := [] }
          else
            { status := 403, error := Option.none, messages := [] }
        else
          let matching := s.messages.filter (fun m =>
            m.conversation_id == thread_id &&
              (match after with
               | Option.some t => t < m.created_at
               | Option.none => true))
          let ordered := matching.mergeSort (fun a b => a.created_at ≤ b.created_at)
          { status := 200, error := Option.none,
            messages := ordered.map (fun m =>
              { sender_id := m.sender_id, text := decrypt_text secret m.ciphertext,
                created_at := m.created_at, is_me := m.sender_id == u.id }) }

/-- `isAdmin` as §4.1 of the spec words it: truthy admin flag, or role
`"admin"` case-insensitively, or trimmed lower-cased e-mail a member of the
configured admin-email set.  Stated for comparison with `is_admin_user`. -/
def is_admin_user_spec (cfg : List String) (u : User) : Bool :=
  pyTruthy u.is_admin || pyNormOpt u.role == "admin" ||
    pyNormOpt u.email ∈ admin_emails cfg

/-! ## Library lemmas about the embedding -/

/-- `utf8DecodeAux` on a non-empty byte list whose first step decodes:
peel off that code point and recurse on the unconsumed rest. -/
theorem utf8DecodeAux_cons_some {b0 cp : Nat} {rest rest2 : List Nat}
    (hu : utf8DecodeOne b0 rest = Option.some (cp, rest2)) :
    utf8DecodeAux (b0 :: rest) =
      (utf8DecodeAux rest2).map (fun cps => cp :: cps) := by
  rw [utf8DecodeAux]
  split
  · next cp2 rest3 heq =>
    rw [hu] at heq
    injection heq with heq2
    injection heq2 with hcp hrest
    rw [hcp, hrest]
  · next heq =>
    rw [hu] at heq
    exact absurd heq (by simp)

/-- Decoding one step of the UTF-8 encoding of a valid Unicode scalar value
recovers exactly that code point and the appended bytes. -/
theorem utf8DecodeOne_encodeChar (n : Nat) (hv : Nat.isValidChar n) (bs : List Nat) :
    ∃ b0 t, utf8EncodeChar n = b0 :: t ∧
      utf8DecodeOne b0 (t ++ bs) = Option.some (n, bs) := by
  rcases hv with hlt | ⟨hgt, hlt⟩
  · -- n < 0xd800
    by_cases h1 : n < 0x80
    · refine ⟨n, [], by rw [utf8EncodeChar, if_pos h1], ?_⟩
      simp only [utf8DecodeOne, List.nil_append]
      rw [if_pos h1]
    · by_cases h2 : n < 0x800
      · refine ⟨0xC0 + n / 0x40, [0x80 + n % 0x40],
          by rw [utf8EncodeChar, if_neg h1, if_pos h2], ?_⟩
        simp only [utf8DecodeOne, List.cons_append, List.nil_append]
        rw [if_neg (by omega), if_pos (by omega), if_pos (by omega)]
        simp only [Option.some.injEq, Prod.mk.injEq]
        exact ⟨by omega, trivial⟩
      · refine ⟨0xE0 + n / 0x1000, [0x80 + n / 0x40 % 0x40, 0x80 + n % 0x40],
          by rw [utf8EncodeChar, if_neg h1, if_neg h2, if_pos (by omega)], ?_⟩
        simp only [utf8DecodeOne, List.cons_append, List.nil_append]
        rw [if_neg (by omega), if_neg (by omega), if_pos (by omega),
          if_pos (by omega)]
        simp only [Option.some.injEq, Prod.mk.injEq]
        exact ⟨by omega, trivial⟩
  · -- 0xdfff < n < 0x110000
    by_cases h3 : n < 0x10000
    · refine ⟨0xE0 + n / 0x1000, [0x80 + n / 0x40 % 0x40, 0x80 + n % 0x40],
        by rw [utf8EncodeChar, if_neg (by omega), if_neg (by omega), if_pos h3], ?_⟩
      simp only [utf8DecodeOne, List.cons_append, List.nil_append]
      rw [if_neg (by omega), if_neg (by omega), if_pos (by omega),
        if_pos (by omega)]
      simp only [Option.some.injEq, Prod.mk.injEq]
      exact ⟨by omega, trivial⟩
    · refine ⟨0xF0 + n / 0x40000,
        [0x80 + n / 0x1000 % 0x40, 0x80 + n / 0x40 % 0x40, 0x80 + n % 0x40],
        by rw [utf8EncodeChar, if_neg (by omega), if_neg (by omega), if_neg h3], ?_⟩
      simp only [utf8DecodeOne, List.cons_append, List.nil_append]
      rw [if_neg (by omega), if_neg (by omega), if_neg (by omega),
        if_pos (by omega)]
      simp only [Option.some.injEq, Prod.mk.injEq]
      exact ⟨by omega, trivial⟩

/-- Decoding the UTF-8 encoding of one valid Unicode scalar value peels off
exactly that code point. -/
theorem utf8DecodeAux_encodeChar (c : Char) (bs : List Nat) :
    utf8DecodeAux (utf8EncodeChar c.toNat ++ bs) =
      (utf8DecodeAux bs).map (fun cps => c.toNat :: cps) := by
  obtain ⟨b0, t, henc, hdec⟩ := utf8DecodeOne_encodeChar c.toNat c.valid bs
  rw [henc, List.cons_append, utf8DecodeAux_cons_some hdec]

/-- Decoding the UTF-8 encoding of a character list yields its code points. -/
theorem utf8DecodeAux_encodeList (cs : List Char) :
    utf8DecodeAux (utf8EncodeList cs) = Option.some (cs.map Char.toNat) := by
  induction cs with
  | nil =>
    rw [utf8EncodeList, utf8DecodeAux]
    rfl
  | cons c cs ih =>
    rw [utf8EncodeList, utf8DecodeAux_encodeChar, ih]
    rfl

/-- String-level UTF-8 round trip: `bytes.decode` after `str.encode` is the
identity. -/
theorem utf8Decode_utf8Encode (s : String) :
    utf8Decode (utf8Encode s) = Option.some s := by
  rw [utf8Decode, utf8Encode, utf8DecodeAux_encodeList]
  simp only [Option.map, List.map_map]
  rcases s with ⟨data⟩
  congr 2
  have hid : Char.ofNat ∘ Char.toNat = id := funext fun c => Char.ofNat_toNat c
  rw [hid, List.map_id]

/-- If a predicate finds nothing in the first list, searching the
concatenation searches the second list. -/
theorem find?_append_of_none {α : Type} {p : α → Bool} {l1 l2 : List α}
    (h : l1.find? p = Option.none) : (l1 ++ l2).find? p = l2.find? p := by
  rw [List.find?_append, h]
  rfl

/-! ## Claims -/

/-- C3: decrypting the encryption of any non-empty unicode text under the key
derived from the configured secret returns the original text, and any
ciphertext on which Fernet decryption fails (authentication failure, wrong
key, or token decoding failure — all raised as `InvalidToken` by the library)
decrypts to the empty string instead of propagating an exception. -/
theorem encrypt_then_decrypt_roundtrip (secret text : String) (token : FernetToken)
    (hne : text ≠ "") :
    decrypt_text secret (encrypt_text secret text) = Option.some text ∧
    (fernetDecrypt (FernetKey.mk secret) token = Option.none →
      decrypt_text secret token = Option.some "") := by
  constructor
  · rw [decrypt_text, encrypt_text, fernetEncrypt]
    simp only [fernetDecrypt, if_pos rfl]
    exact utf8Decode_utf8Encode text
  · intro h
    rw [decrypt_text, h]

/-- Witness for C3 at a concrete unicode text and a malformed token. -/
theorem encrypt_then_decrypt_roundtrip_witness :
    decrypt_text "CHANGE_ME" (encrypt_text "CHANGE_ME" "héllo ✓") =
      Option.some "héllo ✓" ∧
    decrypt_text "CHANGE_ME" FernetToken.malformed = Option.some "" := by
  have h := encrypt_then_decrypt_roundtrip "CHANGE_ME" "héllo ✓"
    FernetToken.malformed (by decide)
  exact ⟨h.1, h.2 rfl⟩

/-- C5: a user classified as admin by `_is_admin_user` is never messaging
restricted, regardless of the `restricted` flag or any verification-status
field ( `_is_messaging_restricted` returns `False` right after the admin
check, before any flag or status is consulted). -/
theorem admin_is_never_restricted (cfg : List String) (u : User)
    (h : is_admin_user cfg (Option.some u) = true) :
    is_messaging_restricted cfg (Option.some u) = false := by
  simp [is_messaging_restricted, h]

/-- A concrete admin user carrying a set `restricted` flag and a pending
verification status. -/
def adminUserEx : User :=
  { id := "aaaaaaaaaaaaaaaaaaaaaaaa", role := Option.some "admin",
    is_admin := PyVal.bool true, email := Option.none,
    restricted := PyVal.bool true,
    doctor_verification_status := Option.some "pending",
    status := Option.none, verification_status := Option.none,
    first_name := Option.some "Ada", last_name := Option.some "Admin" }

/-- Witness for C5: `adminUserEx` is an admin and is not restricted despite
its flags. -/
theorem admin_is_never_restricted_witness :
    is_admin_user [] (Option.some adminUserEx) = true ∧
    is_messaging_restricted [] (Option.some adminUserEx) = false := by
  refine ⟨by decide, admin_is_never_restricted [] adminUserEx (by decide)⟩

/-- C1: for a restricted requester whose normalized role is `"doctor"` and a
conversation with at least one other participant, access is granted iff the
resolved admin-identity set is non-empty and every other participant id is in
it; and for a requester of any role, access is denied whenever the
other-participant id list is empty. -/
theorem restricted_doctor_access_iff_admin_thread (cfg adminIds : List String)
    (lookup : String → Option User) (u : User) (convo : Conversation) :
    (pyNormOpt u.role = "doctor" → other_participant_ids u convo ≠ [] →
      (restricted_can_access_conversation cfg adminIds lookup u convo = true ↔
        adminIds ≠ [] ∧ ∀ pid ∈ other_participant_ids u convo, pid ∈ adminIds)) ∧
    (other_participant_ids u convo = [] →
      restricted_can_access_conversation cfg adminIds lookup u convo = false) := by
  constructor
  · intro hrole hne
    rw [restricted_can_access_conversation]
    simp only [other_participant_ids] at hne ⊢
    rw [if_neg (by simp [List.isEmpty_iff, hne]),
      if_pos (by simp [hrole])]
    simp only [List.isEmpty_iff, List.all_eq_true, Bool.and_eq_true,
      Bool.not_eq_true', List.isEmpty_eq_false, bne_iff_ne, ne_eq,
      decide_eq_true_eq]
  · intro hempty
    rw [restricted_can_access_conversation]
    simp only [other_participant_ids] at hempty
    rw [if_pos (by simp [List.isEmpty_iff, hempty])]

/-- A concrete pending doctor. -/
def pendingDoctorEx : User :=
  { id := "dddddddddddddddddddddddd", role := Option.some "doctor",
    is_admin := PyVal.none, email := Option.none, restricted := PyVal.none,
    doctor_verification_status := Option.some "pending",
    status := Option.none, verification_status := Option.none,
    first_name := Option.some "Dan", last_name := Option.some "Doc" }

/-- Witness for C1: the pending doctor reaches the all-admin conversation and
is denied on a self-only conversation. -/
theorem restricted_doctor_access_iff_admin_thread_witness :
    restricted_can_access_conversation [] ["aaaaaaaaaaaaaaaaaaaaaaaa"]
      (fun _ => Option.none) pendingDoctorEx
      { id := "c1", participants := ["dddddddddddddddddddddddd", "aaaaaaaaaaaaaaaaaaaaaaaa"],
        created_at := 0, updated_at := 0, last_read_at := [] } = true ∧
    restricted_can_access_conversation [] ["aaaaaaaaaaaaaaaaaaaaaaaa"]
      (fun _ => Option.none) pendingDoctorEx
      { id := "c2", participants := ["dddddddddddddddddddddddd"],
        created_at := 0, updated_at := 0, last_read_at := [] } = false := by
  constructor
  · exact ((restricted_doctor_access_iff_admin_thread [] ["aaaaaaaaaaaaaaaaaaaaaaaa"]
      (fun _ => Option.none) pendingDoctorEx _).1 (by decide) (by decide)).mpr
      (by decide)
  · exact (restricted_doctor_access_iff_admin_thread [] ["aaaaaaaaaaaaaaaaaaaaaaaa"]
      (fun _ => Option.none) pendingDoctorEx _).2 (by decide)

/-- C7 counterexample: the fixed denial body carries a trailing period, so it
is not the exact string the claim quotes. -/
theorem restricted_access_error_message_not_as_claimed :
    restricted_access_error_message ≠
      "Please wait for admin to verify your account" := by
  decide

/-- C7 (amended): a denied restricted requester with role `"doctor"` receives
the fixed message `"Please wait for admin to verify your account."` (with
trailing period) with status 403, while a denied restricted non-doctor
receives the generic `"Forbidden"`; the two texts differ. -/
theorem restricted_doctor_denial_distinguished (cfg adminIds : List String)
    (lookup : String → Option User) (secret : String) (u : User)
    (thread_id text : String) (now : Nat) (s : Store) (convo : Conversation)
    (htext : pyStrip text ≠ "")
    (hid : isValidObjectIdStr thread_id = true)
    (hfind : s.conversations.find? (fun c => c.id == thread_id && u.id ∈ c.participants) =
      Option.some convo)
    (hres : is_messaging_restricted cfg (Option.some u) = true)
    (hacc : restricted_can_access_conversation cfg adminIds lookup u convo = false) :
    (pyNormOpt u.role = "doctor" →
      api_send_message cfg adminIds lookup secret (Option.some u) thread_id text now s =
        { status := 403, error := Option.some restricted_access_error_message,
          message := Option.none, store := s }) ∧
    (pyNormOpt u.role ≠ "doctor" →
      api_send_message cfg adminIds lookup secret (Option.some u) thread_id text now s =
        { status := 403, error := Option.some "Forbidden",
          message := Option.none, store := s }) ∧
    restricted_access_error_message =
      "Please wait for admin to verify your account." ∧
    restricted_access_error_message ≠ "Forbidden" := by
  refine ⟨?_, ?_, rfl, by decide⟩
  · intro hrole
    simp [api_send_message, hfind, hres, hacc, hrole, hid, htext]
  · intro hrole
    simp [api_send_message, hfind, hres, hacc, hrole, hid, htext]

/-- A conversation between the pending doctor and a plain patient id. -/
def doctorPatientConvoEx : Conversation :=
  { id := "cccccccccccccccccccccccc",
    participants := ["dddddddddddddddddddddddd", "pppppppppppppppppppppppp"],
    created_at := 0, updated_at := 0, last_read_at := [] }

/-- Witness for C7: the concrete pending doctor, denied on a non-admin
conversation, gets the fixed wait-for-verification body. -/
theorem restricted_doctor_denial_distinguished_witness :
    api_send_message [] ["aaaaaaaaaaaaaaaaaaaaaaaa"] (fun _ => Option.none)
      "CHANGE_ME" (Option.some pendingDoctorEx) "cccccccccccccccccccccccc"
      "hello" 5 { conversations := [doctorPatientConvoEx], messages := [] } =
      { status := 403, error := Option.some restricted_access_error_message,
        message := Option.none,
        store := { conversations := [doctorPatientConvoEx], messages := [] } } := by
  exact (restricted_doctor_denial_distinguished [] ["aaaaaaaaaaaaaaaaaaaaaaaa"]
    (fun _ => Option.none) "CHANGE_ME" pendingDoctorEx "cccccccccccccccccccccccc"
    "hello" 5 { conversations := [doctorPatientConvoEx], messages := [] }
    doctorPatientConvoEx (by decide) (by decide) (by decide) (by decide)
    (by decide)).1 (by decide)

/-- C6: an authenticated send whose text strips to empty is rejected with the
validation error `"Empty message"` and leaves both stores untouched (no
message row, no `updated_at` bump) — the guard runs before any data access. -/
theorem empty_message_rejected_without_side_effects (cfg adminIds : List String)
    (lookup : String → Option User) (secret : String) (u : User)
    (thread_id text : String) (now : Nat) (s : Store)
    (hempty : pyStrip text = "") :
    api_send_message cfg adminIds lookup secret (Option.some u) thread_id text now s =
      { status := 400, error := Option.some "Empty message",
        message := Option.none, store := s } := by
  simp [api_send_message, hempty]

/-- Witness for C6 at a whitespace-only text. -/
theorem empty_message_rejected_without_side_effects_witness :
    api_send_message [] [] (fun _ => Option.none) "CHANGE_ME"
      (Option.some pendingDoctorEx) "cccccccccccccccccccccccc" "   " 5
      { conversations := [doctorPatientConvoEx], messages := [] } =
      { status := 400, error := Option.some "Empty message",
        message := Option.none,
        store := { conversations := [doctorPatientConvoEx], messages := [] } } := by
  exact empty_message_rejected_without_side_effects [] [] (fun _ => Option.none)
    "CHANGE_ME" pendingDoctorEx "cccccccccccccccccccccccc" "   " 5
    { conversations := [doctorPatientConvoEx], messages := [] } (by decide)

/-- Lexicographic character-list comparison is asymmetric. -/
theorem pyCharListLt_asymm : ∀ as bs : List Char,
    pyCharListLt as bs = true → pyCharListLt bs as = true → False := by
  intro as
  induction as with
  | nil =>
    intro bs h1 h2
    cases bs with
    | nil => simp [pyCharListLt] at h1
    | cons b bs => simp [pyCharListLt] at h2
  | cons a as ih =>
    intro bs h1 h2
    cases bs with
    | nil => simp [pyCharListLt] at h1
    | cons b bs =>
      simp only [pyCharListLt, Bool.or_eq_true, Bool.and_eq_true,
        decide_eq_true_eq, beq_iff_eq] at h1 h2
      rcases h1 with h1 | ⟨heq1, h1⟩
      · rcases h2 with h2 | ⟨heq2, h2⟩
        · exact absurd h2 (lt_asymm h1)
        · rw [heq2] at h1
          exact lt_irrefl a h1
      · rcases h2 with h2 | ⟨heq2, h2⟩
        · rw [heq1] at h2
          exact lt_irrefl b h2
        · exact ih bs h1 h2

/-- If neither character list is lexicographically below the other, they are
equal. -/
theorem pyCharListLt_connex : ∀ as bs : List Char,
    pyCharListLt as bs = false → pyCharListLt bs as = false → as = bs := by
  intro as
  induction as with
  | nil =>
    intro bs h1 h2
    cases bs with
    | nil => rfl
    | cons b bs => simp [pyCharListLt] at h1
  | cons a as ih =>
    intro bs h1 h2
    cases bs with
    | nil => simp [pyCharListLt] at h2
    | cons b bs =>
      simp only [pyCharListLt, Bool.or_eq_false_iff, Bool.and_eq_false_iff,
        decide_eq_false_iff_not, beq_eq_false_iff_ne, ne_eq] at h1 h2
      have hab : a = b := le_antisymm (not_lt.mp h2.1) (not_lt.mp h1.1)
      rcases h1.2 with hne | hlt1
      · exact absurd hab hne
      · rcases h2.2 with hne | hlt2
        · exact absurd hab.symm hne
        · rw [hab, ih bs hlt1 hlt2]

/-- The two-element canonicalization of `start_message` does not depend on
argument order. -/
theorem canonical_pair_participants_comm (a b : String) :
    canonical_pair_participants a b = canonical_pair_participants b a := by
  rw [canonical_pair_participants, canonical_pair_participants]
  cases h1 : pyStrLe a b <;> cases h2 : pyStrLe b a
  · -- both false: impossible
    simp only [pyStrLe, pyStrLt, Bool.or_eq_false_iff, beq_eq_false_iff_ne, ne_eq] at h1 h2
    have : a.data = b.data := pyCharListLt_connex a.data b.data h1.1 h2.1
    rcases a with ⟨da⟩
    rcases b with ⟨db⟩
    simp only at this
    rw [this] at h1
    exact absurd rfl h1.2
  · rfl
  · rfl
  · -- both true: a = b
    simp only [pyStrLe, pyStrLt, Bool.or_eq_true, beq_iff_eq] at h1 h2
    rcases h1 with h1 | h1
    · rcases h2 with h2 | h2
      · exact absurd (pyCharListLt_asymm a.data b.data h1 h2) (fun hf => hf)
      · rw [h2]
    · rw [h1]

/-- C2 counterexample: for equal user ids the stored participant sequence is
`sorted([a, a]) = [a, a]`, not the deduplicated `sort(dedupe([a, a])) = [a]`
the claim describes. -/
theorem start_message_does_not_dedupe :
    (start_message_core [] "cccccccccccccccccccccccc" 0
        "uuuuuuuuuuuuuuuuuuuuuuuu" "uuuuuuuuuuuuuuuuuuuuuuuu").2 =
      [{ id := "cccccccccccccccccccccccc",
         participants := ["uuuuuuuuuuuuuuuuuuuuuuuu", "uuuuuuuuuuuuuuuuuuuuuuuu"],
         created_at := 0, updated_at := 0, last_read_at := [] }] ∧
    canonical_pair_participants "uuuuuuuuuuuuuuuuuuuuuuuu" "uuuuuuuuuuuuuuuuuuuuuuuu" ≠
      canonical_pair_participants_spec "uuuuuuuuuuuuuuuuuuuuuuuu"
        "uuuuuuuuuuuuuuuuuuuuuuuu" := by
  decide

/-- C2 (amended): `start_message` canonicalizes the participants to the
sorted — but not deduplicated — pair `sorted([a, b])` and looks a
conversation up by exact sequence match; hence the resolution is symmetric in
the two ids, and a repeated call with the same pair returns the same
conversation id and never creates a second conversation. -/
theorem start_conversation_symmetric_and_idempotent (convos : List Conversation)
    (freshId : String) (now : Nat) (a b : String) :
    canonical_pair_participants a b = canonical_pair_participants b a ∧
    start_message_core convos freshId now a b =
      start_message_core convos freshId now b a ∧
    (∀ freshId2 now2,
      start_message_core (start_message_core convos freshId now a b).2
          freshId2 now2 a b =
        start_message_core convos freshId now a b) := by
  refine ⟨canonical_pair_participants_comm a b, ?_, ?_⟩
  · rw [start_message_core, start_message_core, canonical_pair_participants_comm a b]
  · intro freshId2 now2
    rcases hfind : convos.find?
        (fun c => c.participants == canonical_pair_participants a b) with _ | ex
    · have h1 : start_message_core convos freshId now a b =
          (freshId, convos ++
            [{ id := freshId, participants := canonical_pair_participants a b,
               created_at := now, updated_at := now, last_read_at := [] }]) := by
        rw [start_message_core]
        simp only [hfind]
      rw [h1, start_message_core, find?_append_of_none hfind]
      simp [List.find?]
    · have h1 : start_message_core convos freshId now a b = (ex.id, convos) := by
        rw [start_message_core]
        simp only [hfind]
      rw [h1, start_message_core]
      simp only [hfind]

/-- A user whose `is_admin` field holds the truthy string `"yes"` (outside the
recognized tuple) and whose e-mail strips to the empty string. -/
def oddFlagUserEx : User :=
  { id := "ffffffffffffffffffffffff", role := Option.some "user",
    is_admin := PyVal.str "yes", email := Option.some " ",
    restricted := PyVal.none, doctor_verification_status := Option.none,
    status := Option.none, verification_status := Option.none,
    first_name := Option.none, last_name := Option.none }

/-- C8 counterexample: with admin-email configuration `[" "]`, the user
`oddFlagUserEx` satisfies the claim's wording (truthy admin flag; normalized
e-mail `""` is a member of the normalized admin-email set) yet
`_is_admin_user` returns `False` — the code only accepts the exact flag tuple
and requires a non-empty e-mail. -/
theorem is_admin_user_differs_from_claim_wording :
    is_admin_user_spec [" "] oddFlagUserEx = true ∧
    is_admin_user [" "] (Option.some oddFlagUserEx) = false := by
  decide

/-- C8 (amended): `_is_admin_user` is true iff the admin flag is one of
`True`, `1`, `"1"`, `"true"`, `"True"`, `"TRUE"`, or the stripped lower-cased
role equals `"admin"`, or the stripped lower-cased e-mail is non-empty and a
member of the configured admin-email set; the function is pure (a Lean
function of the record and configuration alone). -/
theorem is_admin_user_characterization (cfg : List String) (u : User) :
    is_admin_user cfg (Option.some u) = true ↔
      (isAdminFlagSet u.is_admin = true ∨ pyNormOpt u.role = "admin" ∨
        (pyNormOpt u.email ≠ "" ∧ pyNormOpt u.email ∈ admin_emails cfg)) := by
  simp only [is_admin_user]
  split_ifs with h1 h2
  · exact iff_of_true rfl (Or.inl h1)
  · exact iff_of_true rfl (Or.inr (Or.inl (by simpa using h2)))
  · simp only [Bool.and_eq_true, bne_iff_ne, ne_eq, decide_eq_true_eq]
    constructor
    · intro hc
      exact Or.inr (Or.inr hc)
    · intro hc
      rcases hc with hflag | hrole | hmail
      · exact absurd hflag h1
      · exact absurd hrole (by simpa using h2)
      · exact hmail

/-- C9 counterexample: with no resolvable viewer, the unread-count endpoint
is not refused — it answers with the default success status 200 and a zero
count instead of an unauthenticated status. -/
theorem api_unread_unauthenticated_not_refused :
    (api_unread [] [] (fun _ => Option.none) Option.none
      { conversations := [], messages := [] }).status = 200 ∧
    (api_unread [] [] (fun _ => Option.none) Option.none
      { conversations := [], messages := [] }).status ≠ 401 := by
  decide

/-- C9 (amended): with no resolvable viewer, thread listing, sending, mark
read and message fetching are refused with status 401 before any data access
(their responses do not depend on the stores and the stores are returned
unchanged); the unread-count endpoint instead returns `{"unread": 0}` with
status 200, likewise before any data access. -/
theorem unauthenticated_requests_handled_before_data_access
    (cfg adminIds : List String) (lookup : String → Option User) (secret : String)
    (thread_id text : String) (now : Nat) (after : Option Nat) (s s2 : Store) :
    (api_threads cfg adminIds lookup Option.none s =
        { status := 401, threads := [] } ∧
      api_threads cfg adminIds lookup Option.none s =
        api_threads cfg adminIds lookup Option.none s2) ∧
    (api_send_message cfg adminIds lookup secret Option.none thread_id text now s =
      { status := 401, error := Option.some "Unauthorized",
        message := Option.none, store := s }) ∧
    (api_mark_read cfg adminIds lookup Option.none thread_id now s =
      { status := 401, ok := false, error := Option.none, store := s }) ∧
    (api_messages_since cfg adminIds lookup secret Option.none thread_id after s =
        { status := 401, error := Option.none, messages := [] } ∧
      api_messages_since cfg adminIds lookup secret Option.none thread_id after s =
        api_messages_since cfg adminIds lookup secret Option.none thread_id after s2) ∧
    (api_unread cfg adminIds lookup Option.none s = { status := 200, unread := 0 } ∧
      api_unread cfg adminIds lookup Option.none s =
        api_unread cfg adminIds lookup Option.none s2) := by
  exact ⟨⟨rfl, rfl⟩, rfl, rfl, ⟨rfl, rfl⟩, rfl, rfl⟩

/-- C4: `_compute_unread_count` counts exactly the conversation's messages
from other senders that are strictly newer than the viewer's last-read mark
when one is present (all of them otherwise); being a list length it is never
negative, and it is zero whenever the viewer sent every message of the
conversation. -/
theorem unread_count_characterization (msgs : List Message) (convo : Conversation)
    (user_id : String) :
    compute_unread_count msgs convo user_id =
      (msgs.filter (fun m =>
        m.conversation_id == convo.id && m.sender_id != user_id &&
          (match convo.last_read_at.lookup user_id with
           | Option.some t => decide (t < m.created_at)
           | Option.none => true))).length ∧
    ((∀ m ∈ msgs, m.conversation_id = convo.id → m.sender_id = user_id) →
      compute_unread_count msgs convo user_id = 0) := by
  constructor
  · rfl
  · intro hall
    rw [compute_unread_count]
    refine List.length_eq_zero.mpr (List.filter_eq_nil_iff.mpr ?_)
    intro m hm
    simp only [matchesQuery, Bool.and_eq_true, beq_iff_eq, bne_iff_ne, ne_eq,
      not_and]
    intro hconj
    exact absurd (hall m hm hconj.1) hconj.2

/-- Witness for C4: a conversation whose only message the viewer sent has
unread count 0. -/
theorem unread_count_characterization_witness :
    compute_unread_count
      [{ conversation_id := "cccccccccccccccccccccccc",
         sender_id := "dddddddddddddddddddddddd",
         ciphertext := FernetToken.malformed, created_at := 1 }]
      doctorPatientConvoEx "dddddddddddddddddddddddd" = 0 := by
  exact (unread_count_characterization _ doctorPatientConvoEx
    "dddddddddddddddddddddddd").2 (by decide)

/-- C10: in the thread listing, a restricted viewer with role `"doctor"`
still sees an inaccessible conversation, flagged `locked = true`; a
restricted viewer of any other role has the inaccessible conversation
dropped from the listing (`thread_entry_for` yields `none`, so `filterMap`
omits it). -/
theorem restricted_listing_locks_doctor_omits_others (cfg adminIds : List String)
    (lookup : String → Option User) (msgs : List Message) (u : User)
    (convo : Conversation)
    (hres : is_messaging_restricted cfg (Option.some u) = true)
    (hacc : restricted_can_access_conversation cfg adminIds lookup u convo = false) :
    (pyNormOpt u.role = "doctor" → ∀ s : Store, convo ∈ s.conversations →
      u.id ∈ convo.participants →
      ∃ e ∈ (api_threads cfg adminIds lookup (Option.some u) s).threads,
        e.id = convo.id ∧ e.locked = true) ∧
    (pyNormOpt u.role ≠ "doctor" →
      thread_entry_for cfg adminIds lookup msgs u convo = Option.none) := by
  constructor
  · intro hrole s hmem hpart
    have hentry : ∃ e, thread_entry_for cfg adminIds lookup s.messages u convo =
        Option.some e ∧ e.id = convo.id ∧ e.locked = true := by
      rw [thread_entry_for]
      rw [if_pos (by simp [hres, hrole])]
      refine ⟨_, rfl, rfl, ?_⟩
      simp [hacc]
    obtain ⟨e, he, heid, helock⟩ := hentry
    refine ⟨e, ?_, heid, helock⟩
    simp only [api_threads]
    refine List.mem_filterMap.mpr ⟨convo, ?_, he⟩
    rw [sort_by_updated_desc]
    exact List.mem_mergeSort.mpr (List.mem_filter.mpr ⟨hmem, by simpa using hpart⟩)
  · intro hrole
    rw [thread_entry_for]
    rw [if_neg (by simp [hrole]), if_pos (by simp [hres, hacc])]

/-- Witness for C10: the concrete pending doctor sees the inaccessible
doctor–patient conversation locked in the listing. -/
theorem restricted_listing_locks_doctor_omits_others_witness :
    ∃ e ∈ (api_threads [] ["aaaaaaaaaaaaaaaaaaaaaaaa"] (fun _ => Option.none)
      (Option.some pendingDoctorEx)
      { conversations := [doctorPatientConvoEx], messages := [] }).threads,
      e.id = "cccccccccccccccccccccccc" ∧ e.locked = true := by
  exact (restricted_listing_locks_doctor_omits_others [] ["aaaaaaaaaaaaaaaaaaaaaaaa"]
    (fun _ => Option.none) [] pendingDoctorEx doctorPatientConvoEx
    (by decide) (by decide)).1 (by decide)
    { conversations := [doctorPatientConvoEx], messages := [] }
    (by decide) (by decide)
